import Mathlib

/-!
# Shallow embedding of the online Merton jump-diffusion calibrator

This file embeds the C++ class `OnlineMertonCalibrator`
(`src/cpp/src/merton_online_calibrator.cpp` together with its header
`src/cpp/include/merton_online_calibrator.hpp`) into Lean 4 and proves
properties of the embedded program.

Modelling conventions:
* C++ `double` values are modelled as real numbers (`ℝ`); `std::int64_t`
  timestamps as `ℤ`; `std::size_t` counters as `ℕ`.
* The deques `returns_` and `dt_us_` are modelled as lists whose head is the
  oldest element; `push_back` appends, `pop_front` takes the tail.
* `neg_log_likelihood` returns `Option ℝ`, with `none` standing for the C++
  `+infinity` sentinel returned for invalid parameters.  Over real numbers the
  likelihood sum itself is always finite (the density is floored at `1e-300`),
  so `none` is exactly the invalid-parameter case and `std::isfinite` on a
  likelihood value corresponds to `Option.isSome`.
* The C++ check `std::isfinite(r)` on `r = std::log(price / last_price)` is
  modelled as `0 < price / lastp`, the exact domain on which the real logarithm
  of the quotient is the value the C++ code computes.
-/

open scoped Classical

namespace Merton

/-- Merton model parameters (C++ struct `MertonParams`). -/
structure MertonParams where
  sigma : ℝ
  lambda : ℝ
  mu_j : ℝ
  delta_j : ℝ

/-- Calibrator configuration (C++ struct `CalibratorConfig`). -/
structure CalibratorConfig where
  window_size : ℕ
  min_points_for_update : ℕ
  n_max : ℕ
  update_every_n_returns : ℕ
  coordinate_steps : ℕ
  improvement_tol : ℝ

/-- Default configuration values from the header. -/
noncomputable def defaultConfig : CalibratorConfig :=
  { window_size := 4096
    min_points_for_update := 512
    n_max := 15
    update_every_n_returns := 128
    coordinate_steps := 3
    improvement_tol := 1e-6 }

/-- The mutable state of an `OnlineMertonCalibrator` object. -/
structure CalState where
  params : MertonParams
  config : CalibratorConfig
  last_price : Option ℝ
  last_ts_us : Option ℤ
  returns : List ℝ
  dt_us : List ℤ
  returns_since_last_update : ℕ

/-- Seconds in one year (C++ constant `kSecsPerYear`). -/
noncomputable def kSecsPerYear : ℝ := 365.25 * 24.0 * 3600.0

/-- `1/sqrt(2*pi)` (C++ constant `kInvSqrt2Pi`). -/
noncomputable def kInvSqrt2Pi : ℝ := 0.3989422804014326779399460599343818684759

/-- C++ `safe_log`: clamps the argument to `1e-300` before taking the log. -/
noncomputable def safe_log (x : ℝ) : ℝ := Real.log (max x 1e-300)

/-- C++ `jump_compensator`: `k = exp(mu_j + 0.5*delta_j^2) - 1`. -/
noncomputable def jump_compensator (mu_j delta_j : ℝ) : ℝ :=
  Real.exp (mu_j + 0.5 * delta_j * delta_j) - 1.0

/-- C++ `standard_normal_pdf`: `phi(z) = (1/sqrt(2pi)) * exp(-z^2/2)`. -/
noncomputable def standard_normal_pdf (z : ℝ) : ℝ :=
  kInvSqrt2Pi * Real.exp (-0.5 * z * z)

/-- C++ `poisson_weight`: `w_n = exp(-lambda_dt) * (lambda_dt)^n / n!`,
computed incrementally as in the source (`w := exp(-x); w *= x/i` for
`i = 1..n`). -/
noncomputable def poisson_weight (n : ℕ) (lambda_dt : ℝ) : ℝ :=
  (List.range n).foldl (fun w i => w * (lambda_dt / ((i : ℝ) + 1)))
    (Real.exp (-lambda_dt))

/-- C++ `std::clamp(x, lo, hi)`. -/
noncomputable def clampd (x lo hi : ℝ) : ℝ :=
  if x < lo then lo else if hi < x then hi else x

/-- `OnlineMertonCalibrator::clamp_params`: keeps parameters in
`sigma ∈ [0.05, 3]`, `lambda ∈ [0.01, 40]`, `mu_j ∈ [-0.5, 0.5]`,
`delta_j ∈ [0.01, 1]`. -/
noncomputable def clamp_params (p : MertonParams) : MertonParams :=
  { sigma := clampd p.sigma 0.05 3.0
    lambda := clampd p.lambda 0.01 40.0
    mu_j := clampd p.mu_j (-0.5) 0.5
    delta_j := clampd p.delta_j 0.01 1.0 }

/-- Construction: the constructor stores `clamp_params initial` and the
configuration; all ingest state starts empty. -/
noncomputable def mkCalibrator (initial : MertonParams) (config : CalibratorConfig) :
    CalState :=
  { params := clamp_params initial
    config := config
    last_price := none
    last_ts_us := none
    returns := []
    dt_us := []
    returns_since_last_update := 0 }

/-- `OnlineMertonCalibrator::estimate_dt_years`: median of `dt_us_`
(element at index `size/2` of the sorted copy) converted to years;
`0` when the buffer is empty. -/
noncomputable def estimate_dt_years (s : CalState) : ℝ :=
  if s.dt_us.isEmpty then 0
  else
    let sorted := s.dt_us.mergeSort (fun a b => decide (a ≤ b))
    let median_us := sorted.getD (sorted.length / 2) 0
    (median_us : ℝ) / 1e6 / kSecsPerYear

/-- `OnlineMertonCalibrator::update_tick`: validates the tick, computes the
log return, pushes into the rolling buffers (evicting the oldest element when
the window exceeds `window_size`), and increments the gating counter.
Returns the C++ boolean result together with the new state. -/
noncomputable def update_tick (s : CalState) (price : ℝ) (epoch_us : ℤ) :
    Bool × CalState :=
  if ¬ 0 < price then (false, s)
  else
    match s.last_price, s.last_ts_us with
    | some lastp, some lastts =>
      let dt_us := epoch_us - lastts
      if dt_us ≤ 0 then
        (false, { s with last_price := some price, last_ts_us := some epoch_us })
      else
        if ¬ 0 < price / lastp then
          (false, { s with last_price := some price, last_ts_us := some epoch_us })
        else
          let r := Real.log (price / lastp)
          let returns1 := s.returns ++ [r]
          let dts1 := s.dt_us ++ [dt_us]
          let returns2 := if s.config.window_size < returns1.length then returns1.tail else returns1
          let dts2 := if s.config.window_size < returns1.length then dts1.tail else dts1
          (true, { s with
                    returns := returns2
                    dt_us := dts2
                    returns_since_last_update := s.returns_since_last_update + 1
                    last_price := some price
                    last_ts_us := some epoch_us })
    | _, _ =>
      (false, { s with last_price := some price, last_ts_us := some epoch_us })

/-- `OnlineMertonCalibrator::merton_pdf`: truncated Poisson–Gaussian mixture,
summed in order of ascending `n`, skipping components with non-positive
conditional variance, floored at `1e-300`. -/
noncomputable def merton_pdf (cfg : CalibratorConfig) (x : ℝ) (p : MertonParams)
    (dt_years : ℝ) : ℝ :=
  let lambda_dt := p.lambda * dt_years
  let k := jump_compensator p.mu_j p.delta_j
  let drift := (-p.lambda * k - 0.5 * p.sigma * p.sigma) * dt_years
  let pdf := (List.range cfg.n_max).foldl
    (fun (acc : ℝ) (n : ℕ) =>
      let mu_n := drift + (n : ℝ) * p.mu_j
      let var_n := p.sigma * p.sigma * dt_years + (n : ℝ) * p.delta_j * p.delta_j
      if var_n ≤ 0 then acc
      else
        let sigma_n := Real.sqrt var_n
        let z := (x - mu_n) / sigma_n
        acc + poisson_weight n lambda_dt * (standard_normal_pdf z / sigma_n)) 0
  max pdf 1e-300

/-- `OnlineMertonCalibrator::neg_log_likelihood`: `none` models the C++
`+infinity` returned for invalid parameters (`sigma ≤ 0`, `lambda < 0` or
`delta_j ≤ 0`); otherwise the in-order sum of `-safe_log (merton_pdf ...)`
over the window. -/
noncomputable def neg_log_likelihood (cfg : CalibratorConfig) (returns : List ℝ)
    (p : MertonParams) (dt_years : ℝ) : Option ℝ :=
  if 0 < p.sigma ∧ 0 ≤ p.lambda ∧ 0 < p.delta_j then
    some (returns.foldl (fun nll r => nll - safe_log (merton_pdf cfg r p dt_years)) 0)
  else none

/-- The acceptance test of the coordinate search:
C++ `std::isfinite(nll) && (best_nll - nll) > config_.improvement_tol`
(`none` standing for an infinite value). -/
def improves (bestNll nll : Option ℝ) (tol : ℝ) : Prop :=
  match nll, bestNll with
  | some v, some b => tol < b - v
  | some _, none => True
  | none, _ => False

/-- The running state of one invocation of the coordinate search:
current best candidate, its (possibly infinite) NLL, and the per-round
`improved` flag. -/
structure SearchState where
  best : MertonParams
  bestNll : Option ℝ
  improved : Bool

/-- The `try_param` lambda: clamp the candidate, evaluate its NLL and accept
it iff the NLL is finite and beats the current best by more than
`improvement_tol`. -/
noncomputable def try_param (cfg : CalibratorConfig) (returns : List ℝ) (dt : ℝ)
    (ss : SearchState) (candidate : MertonParams) : SearchState :=
  let c := clamp_params candidate
  let nll := neg_log_likelihood cfg returns c dt
  if improves ss.bestNll nll cfg.improvement_tol then ⟨c, nll, true⟩ else ss

/-- Halve every component of the step vector (C++ `step.* *= 0.5`). -/
noncomputable def halve_step (step : MertonParams) : MertonParams :=
  ⟨step.sigma * 0.5, step.lambda * 0.5, step.mu_j * 0.5, step.delta_j * 0.5⟩

/-- One round of the coordinate search: the eight trials in source order
(`sigma+`, `sigma-`, `lambda+`, `lambda-`, `mu_j+`, `mu_j-`, `delta_j+`,
`delta_j-`), each candidate built from the current best, followed by the
step-halving test. -/
noncomputable def coord_round (cfg : CalibratorConfig) (returns : List ℝ) (dt : ℝ)
    (st : SearchState × MertonParams) : SearchState × MertonParams :=
  let step := st.2
  let ss0 : SearchState := ⟨st.1.best, st.1.bestNll, false⟩
  let s1 := try_param cfg returns dt ss0 { ss0.best with sigma := ss0.best.sigma + step.sigma }
  let s2 := try_param cfg returns dt s1 { s1.best with sigma := s1.best.sigma - step.sigma }
  let s3 := try_param cfg returns dt s2 { s2.best with lambda := s2.best.lambda + step.lambda }
  let s4 := try_param cfg returns dt s3 { s3.best with lambda := s3.best.lambda - step.lambda }
  let s5 := try_param cfg returns dt s4 { s4.best with mu_j := s4.best.mu_j + step.mu_j }
  let s6 := try_param cfg returns dt s5 { s5.best with mu_j := s5.best.mu_j - step.mu_j }
  let s7 := try_param cfg returns dt s6 { s6.best with delta_j := s6.best.delta_j + step.delta_j }
  let s8 := try_param cfg returns dt s7 { s7.best with delta_j := s7.best.delta_j - step.delta_j }
  (s8, if s8.improved then step else halve_step step)

/-- The `for (iter = 0; iter < coordinate_steps; ++iter)` loop. -/
noncomputable def run_rounds (cfg : CalibratorConfig) (returns : List ℝ) (dt : ℝ) :
    ℕ → SearchState × MertonParams → SearchState × MertonParams
  | 0, st => st
  | n + 1, st => run_rounds cfg returns dt n (coord_round cfg returns dt st)

/-- The initial step vector of one invocation (source: `MertonParams step{...}`). -/
noncomputable def initial_step (best : MertonParams) : MertonParams :=
  ⟨max 0.02 (best.sigma * 0.08),
   max 0.10 (best.lambda * 0.10),
   max 0.002 (|best.mu_j| * 0.25),
   max 0.002 (best.delta_j * 0.20)⟩

/-- `OnlineMertonCalibrator::maybe_update_params`: gating, counter reset,
coordinate search, commit, change report.  Returns the C++ boolean result
together with the new state. -/
noncomputable def maybe_update_params (s : CalState) : Bool × CalState :=
  if s.returns.length < s.config.min_points_for_update then (false, s)
  else if s.returns_since_last_update < s.config.update_every_n_returns then (false, s)
  else
    let s0 : CalState := { s with returns_since_last_update := 0 }
    let dt := estimate_dt_years s0
    if ¬ 0 < dt then (false, s0)
    else
      let best0 := s0.params
      let bestNll0 := neg_log_likelihood s0.config s0.returns best0 dt
      let res := run_rounds s0.config s0.returns dt s0.config.coordinate_steps
        (⟨best0, bestNll0, false⟩, initial_step best0)
      let best := res.1.best
      let changed : Bool :=
        if 1e-12 < |best.sigma - s0.params.sigma| ∨ 1e-12 < |best.lambda - s0.params.lambda| ∨
           1e-12 < |best.mu_j - s0.params.mu_j| ∨ 1e-12 < |best.delta_j - s0.params.delta_j|
        then true else false
      (changed, { s0 with params := best })

/-- `OnlineMertonCalibrator::fair_value`:
`E[S_T] = s0 * exp((r - q - lambda*k) * T)`. -/
noncomputable def fair_value (s : CalState) (s0 q_annual t_years r : ℝ) : ℝ :=
  let k := jump_compensator s.params.mu_j s.params.delta_j
  let drift := r - q_annual - s.params.lambda * k
  s0 * Real.exp (drift * t_years)

/-- C++ `std::llround`: round half away from zero. -/
noncomputable def llround (x : ℝ) : ℤ :=
  if 0 ≤ x then ⌊x + 1 / 2⌋ else ⌈x - 1 / 2⌉

/-- Discount factor of the external QuantLib collaborator: `FlatForward`
with continuous compounding and the `Actual365Fixed` day counter discounts a
maturity `t` years away by `exp(-rate * t)`.  This models the documented
semantics of the out-of-scope library call; only the `days`/`t` computation
around it is repository code. -/
noncomputable def ql_flat_discount (rate t : ℝ) : ℝ := Real.exp (-rate * t)

/-- `OnlineMertonCalibrator::fair_value_quantlib`: non-positive `s0` returns
`s0`; otherwise the maturity is `max(1, llround(max(t_years, 1e-8) * 365.25))`
days from today, `t` is its `Actual365Fixed` year fraction `days / 365`, the
no-jump forward is `s0 * Dq(t) / Dr(t)` and the result is
`forward * exp(-lambda * k * t)`. -/
noncomputable def fair_value_quantlib (s : CalState) (s0 q_annual t_years r : ℝ) : ℝ :=
  if ¬ 0 < s0 then s0
  else
    let days : ℤ := max 1 (llround (max t_years 1e-8 * 365.25))
    let t : ℝ := (days : ℝ) / 365
    if ¬ 0 < t then s0
    else
      let forward := s0 * (ql_flat_discount q_annual t / ql_flat_discount r t)
      let k := jump_compensator s.params.mu_j s.params.delta_j
      forward * Real.exp (-s.params.lambda * k * t)

/-- `OnlineMertonCalibrator::sample_count`. -/
def sample_count (s : CalState) : ℕ := s.returns.length

/-- One public mutating operation of the calibrator object. -/
inductive Op where
  | tick (price : ℝ) (ts : ℤ)
  | maybeUpdate

/-- Apply one operation to the state. -/
noncomputable def runOp (s : CalState) : Op → CalState
  | .tick p t => (update_tick s p t).2
  | .maybeUpdate => (maybe_update_params s).2

/-- Apply a sequence of operations to the state. -/
noncomputable def runOps (s : CalState) : List Op → CalState
  | [] => s
  | op :: ops => runOps (runOp s op) ops

/-- Feed a sequence of ticks. -/
noncomputable def runTicks (s : CalState) : List (ℝ × ℤ) → CalState
  | [] => s
  | (p, t) :: ts => runTicks (update_tick s p t).2 ts

/-- The log-returns accepted (i.e. `update_tick` returned `true`) while
feeding a sequence of ticks, oldest first. -/
noncomputable def acceptedReturns : CalState → List (ℝ × ℤ) → List ℝ
  | _, [] => []
  | s, (p, t) :: ts =>
    (if (update_tick s p t).1 then [Real.log (p / s.last_price.getD 0)] else [])
      ++ acceptedReturns (update_tick s p t).2 ts

/-! ## Parameter range invariant -/

/-- The clamped parameter range from `clamp_params`. -/
def inRange (p : MertonParams) : Prop :=
  0.05 ≤ p.sigma ∧ p.sigma ≤ 3 ∧
  0.01 ≤ p.lambda ∧ p.lambda ≤ 40 ∧
  -0.5 ≤ p.mu_j ∧ p.mu_j ≤ 0.5 ∧
  0.01 ≤ p.delta_j ∧ p.delta_j ≤ 1

theorem clampd_mem (x lo hi : ℝ) (h : lo ≤ hi) :
    lo ≤ clampd x lo hi ∧ clampd x lo hi ≤ hi := by
  unfold clampd
  split_ifs with h1 h2
  · exact ⟨le_refl lo, h⟩
  · exact ⟨h, le_refl hi⟩
  · exact ⟨not_lt.mp h1, not_lt.mp h2⟩

theorem clamp_params_inRange (p : MertonParams) : inRange (clamp_params p) := by
  have hs := clampd_mem p.sigma 0.05 3.0 (by norm_num)
  have hl := clampd_mem p.lambda 0.01 40.0 (by norm_num)
  have hm := clampd_mem p.mu_j (-0.5) 0.5 (by norm_num)
  have hd := clampd_mem p.delta_j 0.01 1.0 (by norm_num)
  exact ⟨hs.1, le_trans hs.2 (by norm_num), hl.1, le_trans hl.2 (by norm_num),
    hm.1, hm.2, hd.1, le_trans hd.2 (by norm_num)⟩

/-! ## Concrete objects used to instantiate theorems on specific inputs -/

/-- Parameters whose jump compensator vanishes:
`mu_j + delta_j^2/2 = -0.00005 + 0.00005 = 0`, so `k = exp 0 - 1 = 0`. -/
noncomputable def pZeroK : MertonParams := ⟨0.05, 0.01, -0.00005, 0.01⟩

/-- A concrete calibrator state with `pZeroK` parameters and empty ingest
state. -/
noncomputable def stZeroK : CalState :=
  { params := pZeroK
    config := defaultConfig
    last_price := none
    last_ts_us := none
    returns := []
    dt_us := []
    returns_since_last_update := 0 }

/-- The same parameters but a different window and ingest state. -/
noncomputable def stZeroK' : CalState :=
  { params := pZeroK
    config := defaultConfig
    last_price := some 100
    last_ts_us := some 7
    returns := [0.25]
    dt_us := [1000000]
    returns_since_last_update := 3 }

/-- A state whose parameters have `sigma = 0.1`. -/
noncomputable def stSigmaA : CalState :=
  { stZeroK with params := ⟨0.1, 20, 0.003, 0.01⟩ }

/-- Like `stSigmaA` but with `sigma = 2.5`; all other parameters agree. -/
noncomputable def stSigmaB : CalState :=
  { stZeroK with params := ⟨2.5, 20, 0.003, 0.01⟩ }

theorem pZeroK_compensator : jump_compensator pZeroK.mu_j pZeroK.delta_j = 0 := by
  unfold jump_compensator pZeroK
  rw [show (-0.00005 + 0.5 * 0.01 * 0.01 : ℝ) = 0 by norm_num, Real.exp_zero]
  norm_num

/-! ## C8: the analytic fair value -/

/-- C8: `fair_value` equals `s0 * exp((r - q - lambda*k) * T)` with
`k = exp(mu_j + delta_j^2/2) - 1` taken from the current parameters; it equals
`s0` when the drift vanishes, and it depends on no window or ingest state
(only on the parameters). -/
theorem fair_value_formula (st : CalState) (s0 q T r : ℝ) :
    fair_value st s0 q T r =
      s0 * Real.exp
        ((r - q - st.params.lambda * jump_compensator st.params.mu_j st.params.delta_j) * T) ∧
    (r - q - st.params.lambda * jump_compensator st.params.mu_j st.params.delta_j = 0 →
      fair_value st s0 q T r = s0) ∧
    ∀ st' : CalState, st'.params = st.params →
      fair_value st' s0 q T r = fair_value st s0 q T r := by
  have hval : ∀ u : CalState, fair_value u s0 q T r =
      s0 * Real.exp
        ((r - q - u.params.lambda * jump_compensator u.params.mu_j u.params.delta_j) * T) :=
    fun _ => rfl
  refine ⟨rfl, fun h => ?_, fun st' h => ?_⟩
  · rw [hval, h, zero_mul, Real.exp_zero, mul_one]
  · rw [hval, hval, h]

/-- Witness for C8 at concrete inputs: with `pZeroK` parameters the drift
`r - q - lambda*k` is `0` for `r = q = 0`, so the fair value is `s0`; and a
state with a different window but the same parameters prices identically. -/
theorem fair_value_formula_witness :
    fair_value stZeroK 100 0 0.25 0 = 100 ∧
    fair_value stZeroK' 100 0 0.25 0 = fair_value stZeroK 100 0 0.25 0 := by
  constructor
  · exact (fair_value_formula stZeroK 100 0 0.25 0).2.1
      (by rw [show stZeroK.params = pZeroK from rfl, pZeroK_compensator]; norm_num)
  · exact (fair_value_formula stZeroK 100 0 0.25 0).2.2 stZeroK' rfl

/-! ## C10: the fair value ignores the diffusion volatility -/

/-- C10: two states agreeing on `lambda`, `mu_j` and `delta_j` (but with
arbitrary `sigma`) produce the same `fair_value` on every input. -/
theorem fair_value_sigma_independent (s1 s2 : CalState)
    (hl : s1.params.lambda = s2.params.lambda)
    (hm : s1.params.mu_j = s2.params.mu_j)
    (hd : s1.params.delta_j = s2.params.delta_j)
    (s0 q T r : ℝ) :
    fair_value s1 s0 q T r = fair_value s2 s0 q T r := by
  unfold fair_value
  rw [hl, hm, hd]

/-- Witness for C10: states with `sigma = 0.1` and `sigma = 2.5` and equal
remaining parameters price identically. -/
theorem fair_value_sigma_independent_witness :
    fair_value stSigmaA 100 0.02 0.25 0.05 = fair_value stSigmaB 100 0.02 0.25 0.05 :=
  fair_value_sigma_independent stSigmaA stSigmaB rfl rfl rfl 100 0.02 0.25 0.05

/-! ## C9: positivity of the mixture density -/

/-- C9: for clamped parameters and positive `dt`, the mixture density is
strictly positive (and in fact at least its floor `1e-300`, the mechanism the
source uses to keep the downstream log finite). -/
theorem merton_pdf_pos (cfg : CalibratorConfig) (x : ℝ) (p : MertonParams)
    (dt : ℝ) (_hp : inRange p) (_hdt : 0 < dt) :
    0 < merton_pdf cfg x p dt ∧ 1e-300 ≤ merton_pdf cfg x p dt := by
  have hfloor : (1e-300 : ℝ) ≤ merton_pdf cfg x p dt := le_max_right _ _
  exact ⟨lt_of_lt_of_le (by norm_num) hfloor, hfloor⟩

/-- Witness for C9 at the default parameters, `x = 0` and `dt = 1`. -/
theorem merton_pdf_pos_witness :
    0 < merton_pdf defaultConfig 0 ⟨0.44, 20, 0.003, 0.01⟩ 1 ∧
    1e-300 ≤ merton_pdf defaultConfig 0 ⟨0.44, 20, 0.003, 0.01⟩ 1 :=
  merton_pdf_pos defaultConfig 0 ⟨0.44, 20, 0.003, 0.01⟩ 1
    (by unfold inRange; norm_num) (by norm_num)

/-! ## State-evolution lemmas -/

theorem update_tick_params (s : CalState) (p : ℝ) (t : ℤ) :
    ((update_tick s p t).2).params = s.params := by
  obtain ⟨pa, cf, lp, lt, rs, du, c⟩ := s
  unfold update_tick
  cases lp <;> cases lt <;> dsimp only <;> split_ifs <;> rfl

theorem maybe_update_window (s : CalState) :
    ((maybe_update_params s).2).returns = s.returns ∧
    ((maybe_update_params s).2).dt_us = s.dt_us ∧
    ((maybe_update_params s).2).config = s.config := by
  unfold maybe_update_params
  dsimp only
  split_ifs <;> exact ⟨rfl, rfl, rfl⟩

theorem update_tick_preserves_window (s : CalState) (p : ℝ) (t : ℤ)
    (h1 : s.returns.length ≤ s.config.window_size)
    (h2 : s.returns.length = s.dt_us.length) :
    ((update_tick s p t).2).config = s.config ∧
    ((update_tick s p t).2).returns.length ≤ s.config.window_size ∧
    ((update_tick s p t).2).returns.length = ((update_tick s p t).2).dt_us.length := by
  obtain ⟨pa, cf, lp, lt, rs, du, c⟩ := s
  dsimp only at h1 h2
  unfold update_tick
  cases lp <;> cases lt <;> dsimp only <;> split_ifs <;>
    simp_all [List.length_tail, List.length_append]

/-! ## C3: the committed parameters always lie in the clamp range -/

theorem inRange_try_param (cfg : CalibratorConfig) (returns : List ℝ) (dt : ℝ)
    (ss : SearchState) (c : MertonParams) (h : inRange ss.best) :
    inRange (try_param cfg returns dt ss c).best := by
  unfold try_param
  dsimp only
  split_ifs
  · exact clamp_params_inRange _
  · exact h

theorem inRange_coord_round (cfg : CalibratorConfig) (returns : List ℝ) (dt : ℝ)
    (st : SearchState × MertonParams) (h : inRange st.1.best) :
    inRange (coord_round cfg returns dt st).1.best := by
  unfold coord_round
  dsimp only
  apply inRange_try_param
  apply inRange_try_param
  apply inRange_try_param
  apply inRange_try_param
  apply inRange_try_param
  apply inRange_try_param
  apply inRange_try_param
  apply inRange_try_param
  exact h

theorem inRange_run_rounds (cfg : CalibratorConfig) (returns : List ℝ) (dt : ℝ) :
    ∀ (n : ℕ) (st : SearchState × MertonParams), inRange st.1.best →
      inRange (run_rounds cfg returns dt n st).1.best := by
  intro n
  induction n with
  | zero => intro st h; exact h
  | succ m ih =>
    intro st h
    exact ih _ (inRange_coord_round cfg returns dt st h)

theorem maybe_update_params_inRange (s : CalState) (h : inRange s.params) :
    inRange ((maybe_update_params s).2).params := by
  unfold maybe_update_params
  dsimp only
  split_ifs <;> first
    | exact h
    | exact inRange_run_rounds _ _ _ _ _ h

/-- C3: for every initial guess and every sequence of `update_tick` /
`maybe_update_params` calls, the calibrator's parameters satisfy
`sigma ∈ [0.05, 3]`, `lambda ∈ [0.01, 40]`, `mu_j ∈ [-0.5, 0.5]`,
`delta_j ∈ [0.01, 1]`: clamping on construction, and the optimizer only
commits clamped candidates. -/
theorem params_always_clamped (initial : MertonParams) (cfg : CalibratorConfig)
    (ops : List Op) :
    inRange ((runOps (mkCalibrator initial cfg) ops).params) := by
  have step : ∀ (s : CalState), inRange s.params → ∀ op, inRange ((runOp s op).params) := by
    intro s hs op
    cases op with
    | tick p t =>
      show inRange ((update_tick s p t).2).params
      rw [update_tick_params]
      exact hs
    | maybeUpdate => exact maybe_update_params_inRange s hs
  suffices h : ∀ (s : CalState), inRange s.params → inRange ((runOps s ops).params) from
    h _ (clamp_params_inRange initial)
  induction ops with
  | nil => intro s hs; exact hs
  | cons op rest ih => intro s hs; exact ih _ (step s hs op)

/-! ## C6: window length bound and buffer-length equality -/

/-- C6: after any sequence of calls, the window holds at most `window_size`
returns and the returns and intervals buffers have equal length. -/
theorem window_length_invariant (initial : MertonParams) (cfg : CalibratorConfig)
    (ops : List Op) :
    sample_count (runOps (mkCalibrator initial cfg) ops) ≤ cfg.window_size ∧
    (runOps (mkCalibrator initial cfg) ops).returns.length =
      (runOps (mkCalibrator initial cfg) ops).dt_us.length := by
  have step : ∀ (s : CalState),
      s.config = cfg → s.returns.length ≤ cfg.window_size →
      s.returns.length = s.dt_us.length → ∀ op,
      (runOp s op).config = cfg ∧ (runOp s op).returns.length ≤ cfg.window_size ∧
      (runOp s op).returns.length = (runOp s op).dt_us.length := by
    intro s hc h1 h2 op
    cases op with
    | tick p t =>
      have := update_tick_preserves_window s p t (hc ▸ h1) h2
      exact ⟨this.1.trans hc, hc ▸ this.2.1, this.2.2⟩
    | maybeUpdate =>
      have := maybe_update_window s
      exact ⟨this.2.2.trans hc, this.1 ▸ h1, this.1 ▸ this.2.1 ▸ h2⟩
  suffices h : ∀ (s : CalState), s.config = cfg → s.returns.length ≤ cfg.window_size →
      s.returns.length = s.dt_us.length →
      (runOps s ops).returns.length ≤ cfg.window_size ∧
      (runOps s ops).returns.length = (runOps s ops).dt_us.length by
    exact h (mkCalibrator initial cfg) rfl (by simp [mkCalibrator]) (by simp [mkCalibrator])
  induction ops with
  | nil => intro s _ h1 h2; exact ⟨h1, h2⟩
  | cons op rest ih =>
    intro s hc h1 h2
    obtain ⟨hc', h1', h2'⟩ := step s hc h1 h2 op
    exact ih _ hc' h1' h2'

/-! ## C1: gating of `maybe_update_params` -/

theorem estimate_nil (s : CalState) (h : s.dt_us = []) : estimate_dt_years s = 0 := by
  unfold estimate_dt_years
  rw [h]
  simp

/-- A configuration making the first two gates trivially satisfiable while the
window is empty (all six fields are writable before construction). -/
noncomputable def cexGateConfig : CalibratorConfig := ⟨0, 0, 15, 1, 3, 1e-6⟩

/-- A reachable state under `cexGateConfig`: with `window_size = 0`, two valid
ticks leave the window empty while the counter is `1`. -/
noncomputable def cexGateState : CalState :=
  { params := ⟨0.44, 20, 0.003, 0.01⟩
    config := cexGateConfig
    last_price := some 1
    last_ts_us := some 0
    returns := []
    dt_us := []
    returns_since_last_update := 1 }

/-- C1 (amended): the optimizer body runs only when all three gates pass;
when either of the first two gates (window length, counter) fails, the call
returns `false` and leaves the whole state — in particular the counter —
unchanged; once the first two gates pass, the counter is reset to `0` even
when the median-interval gate `dt > 0` subsequently fails, in which case the
call still returns `false`. -/
theorem gating_behavior (s : CalState) :
    ((s.returns.length < s.config.min_points_for_update ∨
      s.returns_since_last_update < s.config.update_every_n_returns) →
      maybe_update_params s = (false, s)) ∧
    (s.config.min_points_for_update ≤ s.returns.length →
      s.config.update_every_n_returns ≤ s.returns_since_last_update →
      (maybe_update_params s).2.returns_since_last_update = 0 ∧
      (¬ 0 < estimate_dt_years s →
        maybe_update_params s = (false, { s with returns_since_last_update := 0 }))) := by
  constructor
  · intro h
    unfold maybe_update_params
    rcases Nat.lt_or_ge s.returns.length s.config.min_points_for_update with h1 | h1
    · rw [if_pos h1]
    · have h2 : s.returns_since_last_update < s.config.update_every_n_returns := by
        rcases h with h | h
        · exact absurd h (Nat.not_lt.mpr h1)
        · exact h
      rw [if_neg (Nat.not_lt.mpr h1), if_pos h2]
  · intro h1 h2
    unfold maybe_update_params
    rw [if_neg (Nat.not_lt.mpr h1), if_neg (Nat.not_lt.mpr h2)]
    dsimp only
    constructor
    · split_ifs <;> rfl
    · intro hdt
      have hdt' : ¬ 0 < estimate_dt_years { s with returns_since_last_update := 0 } := hdt
      rw [if_pos hdt']

/-- Witness for C1 (amended) at concrete states: on a fresh default-config
state the first gate fails and nothing changes; on `cexGateState` the first
two gates pass and the counter is reset. -/
theorem gating_behavior_witness :
    maybe_update_params stZeroK = (false, stZeroK) ∧
    (maybe_update_params cexGateState).2.returns_since_last_update = 0 := by
  constructor
  · exact (gating_behavior stZeroK).1 (Or.inl (by simp [stZeroK, defaultConfig]))
  · exact ((gating_behavior cexGateState).2
      (by simp [cexGateState, cexGateConfig])
      (by simp [cexGateState, cexGateConfig])).1

/-- C1 counterexample: at `cexGateState` the median-interval gate fails
(the window is empty, so `estimate_dt_years = 0`), `maybe_update_params`
returns `false`, yet the counter changes from `1` to `0` — refuting
"whenever any gate fails ... leaves the counter unchanged". -/
theorem gating_counterexample :
    ¬ 0 < estimate_dt_years cexGateState ∧
    (maybe_update_params cexGateState).1 = false ∧
    cexGateState.returns_since_last_update = 1 ∧
    (maybe_update_params cexGateState).2.returns_since_last_update = 0 := by
  have h1 : ¬ cexGateState.returns.length < cexGateState.config.min_points_for_update := by
    simp [cexGateState, cexGateConfig]
  have h2 : ¬ cexGateState.returns_since_last_update <
      cexGateState.config.update_every_n_returns := by
    simp [cexGateState, cexGateConfig]
  have hdt : ¬ (0 : ℝ) < estimate_dt_years
      { cexGateState with returns_since_last_update := 0 } := by
    rw [estimate_nil _ (by simp [cexGateState])]
    norm_num
  have hrun : maybe_update_params cexGateState =
      (false, { cexGateState with returns_since_last_update := 0 }) := by
    unfold maybe_update_params
    rw [if_neg h1, if_neg h2]
    dsimp only
    rw [if_pos hdt]
  refine ⟨?_, ?_, rfl, ?_⟩
  · rw [estimate_nil _ (by simp [cexGateState])]
    norm_num
  · rw [hrun]
  · rw [hrun]

/-! ## C2: behaviour of the curve-based fair value -/

theorem days_one (T : ℝ) (hT : T ≤ 0) :
    max (1 : ℤ) (llround (max T 1e-8 * 365.25)) = 1 := by
  have hmax : max T 1e-8 = (1e-8 : ℝ) := max_eq_right (le_trans hT (by norm_num))
  rw [hmax]
  unfold llround
  rw [if_pos (by norm_num)]
  have hfl : ⌊(1e-8 * 365.25 + 1 / 2 : ℝ)⌋ = 0 := by
    rw [Int.floor_eq_zero_iff]
    norm_num [Set.mem_Ico]
  rw [hfl]
  decide

/-- Closed form of `fair_value_quantlib` when `s0 > 0` and `t_years ≤ 0`: the
maturity is clamped to one day, so the result is the one-day curve value, not
`s0`. -/
theorem fvq_pos_nonposT (st : CalState) (s0 q T r : ℝ) (hs0 : 0 < s0) (hT : T ≤ 0) :
    fair_value_quantlib st s0 q T r =
      s0 * Real.exp ((r - q - st.params.lambda *
        jump_compensator st.params.mu_j st.params.delta_j) * (1 / 365)) := by
  unfold fair_value_quantlib
  rw [if_neg (not_not_intro hs0)]
  dsimp only
  rw [days_one T hT]
  rw [if_neg (not_not_intro (by norm_num : (0 : ℝ) < ((1 : ℤ) : ℝ) / 365))]
  simp only [ql_flat_discount]
  rw [show (((1 : ℤ) : ℝ) / 365) = (1 / 365 : ℝ) by norm_num]
  rw [div_eq_mul_inv, ← Real.exp_neg, ← Real.exp_add, mul_assoc, ← Real.exp_add]
  congr 1
  ring_nf

/-- C2 (amended): `fair_value_quantlib` with non-positive `s0` returns `s0`
unchanged, but with positive `s0` and non-positive `t_years` it does NOT
return `s0`: the maturity is clamped to one day and the one-day curve value
`s0 * exp((r - q - lambda*k) / 365)` is returned. -/
theorem fvq_behavior (st : CalState) (s0 q T r : ℝ) :
    (s0 ≤ 0 → fair_value_quantlib st s0 q T r = s0) ∧
    (0 < s0 → T ≤ 0 →
      fair_value_quantlib st s0 q T r =
        s0 * Real.exp ((r - q - st.params.lambda *
          jump_compensator st.params.mu_j st.params.delta_j) * (1 / 365))) := by
  constructor
  · intro h
    unfold fair_value_quantlib
    rw [if_pos (not_lt.mpr h)]
  · intro hs0 hT
    exact fvq_pos_nonposT st s0 q T r hs0 hT

/-- Witness for C2 (amended) at concrete inputs. -/
theorem fvq_behavior_witness :
    fair_value_quantlib stZeroK (-2) 0 (-1) 365 = -2 ∧
    fair_value_quantlib stZeroK 1 0 (-1) 365 =
      1 * Real.exp ((365 - 0 - stZeroK.params.lambda *
        jump_compensator stZeroK.params.mu_j stZeroK.params.delta_j) * (1 / 365)) := by
  constructor
  · exact (fvq_behavior stZeroK (-2) 0 (-1) 365).1 (by norm_num)
  · exact (fvq_behavior stZeroK 1 0 (-1) 365).2 (by norm_num) (by norm_num)

/-- C2 counterexample: at `t_years = 0` (non-positive) with `s0 = 1`, `q = 0`
and `r = 365`, `fair_value_quantlib` returns `exp 1 ≠ 1 = s0`: the claimed
"returns `s0` unchanged for non-positive `t_years`" is false. -/
theorem fvq_counterexample : fair_value_quantlib stZeroK 1 0 0 365 ≠ 1 := by
  rw [fvq_pos_nonposT stZeroK 1 0 0 365 one_pos le_rfl]
  rw [show stZeroK.params = pZeroK from rfl, pZeroK_compensator]
  rw [show ((365 : ℝ) - 0 - pZeroK.lambda * 0) * (1 / 365) = 1 by norm_num]
  rw [one_mul, Ne, Real.exp_eq_one_iff]
  norm_num

/-! ## C4: the coordinate-search round refines the spec's description -/

/-- One coordinate of the parameter vector. -/
inductive Coord where
  | sigma
  | lambda
  | mu_j
  | delta_j

/-- Select the step component belonging to a coordinate. -/
def coordStep : Coord → MertonParams → ℝ
  | .sigma, s => s.sigma
  | .lambda, s => s.lambda
  | .mu_j, s => s.mu_j
  | .delta_j, s => s.delta_j

/-- Offset one coordinate of a parameter vector by `d`. -/
def coordOffset : Coord → MertonParams → ℝ → MertonParams
  | .sigma, p, d => { p with sigma := p.sigma + d }
  | .lambda, p, d => { p with lambda := p.lambda + d }
  | .mu_j, p, d => { p with mu_j := p.mu_j + d }
  | .delta_j, p, d => { p with delta_j := p.delta_j + d }

/-- The spec's trial order: `sigma+, sigma-, lambda+, lambda-, mu_j+, mu_j-,
delta_j+, delta_j-` (the boolean is the sign). -/
def trial_order : List (Coord × Bool) :=
  [(.sigma, true), (.sigma, false), (.lambda, true), (.lambda, false),
   (.mu_j, true), (.mu_j, false), (.delta_j, true), (.delta_j, false)]

/-- The spec's acceptance condition, in the spec's words: a trial is accepted
iff its NLL is finite and improves the current best NLL by strictly more than
the improvement tolerance. -/
def spec_accepts (bestNll nll : Option ℝ) (tol : ℝ) : Prop :=
  ∃ v, nll = some v ∧ ∀ b, bestNll = some b → tol < b - v

/-- One trial as the spec describes it. -/
noncomputable def spec_try (cfg : CalibratorConfig) (returns : List ℝ) (dt : ℝ)
    (ss : SearchState) (candidate : MertonParams) : SearchState :=
  let c := clamp_params candidate
  let nll := neg_log_likelihood cfg returns c dt
  if spec_accepts ss.bestNll nll cfg.improvement_tol then ⟨c, nll, true⟩ else ss

/-- One round as the spec describes it: fold the eight trials of
`trial_order` (each trial offset taken from the current best, not compounded
within the round), then halve the step vector component-wise iff no trial was
accepted. -/
noncomputable def spec_round (cfg : CalibratorConfig) (returns : List ℝ) (dt : ℝ)
    (st : SearchState × MertonParams) : SearchState × MertonParams :=
  let ss := trial_order.foldl
    (fun ss d =>
      spec_try cfg returns dt ss
        (coordOffset d.1 ss.best (if d.2 then coordStep d.1 st.2 else -coordStep d.1 st.2)))
    ⟨st.1.best, st.1.bestNll, false⟩
  (ss, if ss.improved then st.2 else halve_step st.2)

theorem improves_iff_spec_accepts (b n : Option ℝ) (tol : ℝ) :
    improves b n tol ↔ spec_accepts b n tol := by
  cases n <;> cases b <;> simp [improves, spec_accepts]

theorem spec_try_eq_try_param (cfg : CalibratorConfig) (returns : List ℝ) (dt : ℝ)
    (ss : SearchState) (c : MertonParams) :
    spec_try cfg returns dt ss c = try_param cfg returns dt ss c := by
  unfold spec_try try_param
  exact if_congr (improves_iff_spec_accepts _ _ _).symm rfl rfl

theorem coord_round_eq_spec_round (cfg : CalibratorConfig) (returns : List ℝ) (dt : ℝ)
    (st : SearchState × MertonParams) :
    coord_round cfg returns dt st = spec_round cfg returns dt st := by
  unfold coord_round spec_round trial_order
  simp only [List.foldl_cons, List.foldl_nil, spec_try_eq_try_param, coordOffset, coordStep,
    if_true, if_false, Bool.false_eq_true, ← sub_eq_add_neg]

/-- C4: per invocation the optimizer performs exactly `coordinate_steps`
rounds, each being the spec's round: eight trials in the fixed order
`sigma+, sigma-, lambda+, lambda-, mu_j+, mu_j-, delta_j+, delta_j-`, each
trial offset from the current best (not compounded within the round), a trial
accepted iff its NLL is finite and improves the best by strictly more than
`improvement_tol`, and the step vector halved component-wise iff no trial of
the round was accepted. -/
theorem optimizer_rounds_spec (cfg : CalibratorConfig) (returns : List ℝ) (dt : ℝ)
    (st : SearchState × MertonParams) :
    run_rounds cfg returns dt cfg.coordinate_steps st =
      (spec_round cfg returns dt)^[cfg.coordinate_steps] st := by
  suffices h : ∀ (n : ℕ) (u : SearchState × MertonParams),
      run_rounds cfg returns dt n u = (spec_round cfg returns dt)^[n] u from
    h cfg.coordinate_steps st
  intro n
  induction n with
  | zero => intro u; rfl
  | succ m ih =>
    intro u
    show run_rounds cfg returns dt m (coord_round cfg returns dt u) = _
    rw [ih, coord_round_eq_spec_round, ← Function.iterate_succ_apply]

/-! ## C5: the committed NLL never gets worse -/

/-- Order on possibly-infinite NLL values: `none` (the C++ `+infinity`) is the
top element. -/
def optLE : Option ℝ → Option ℝ → Prop
  | _, none => True
  | some x, some y => x ≤ y
  | none, some _ => False

theorem optLE_refl (a : Option ℝ) : optLE a a := by
  cases a with
  | none => trivial
  | some x => exact le_refl x

theorem optLE_trans {a b c : Option ℝ} (h1 : optLE a b) (h2 : optLE b c) :
    optLE a c := by
  cases a <;> cases b <;> cases c <;> simp_all [optLE]
  exact le_trans h1 h2

theorem try_param_nll_inv (cfg : CalibratorConfig) (returns : List ℝ) (dt : ℝ)
    (ss : SearchState) (c : MertonParams) (htol : 0 ≤ cfg.improvement_tol)
    (h : ss.bestNll = neg_log_likelihood cfg returns ss.best dt) :
    (try_param cfg returns dt ss c).bestNll =
      neg_log_likelihood cfg returns (try_param cfg returns dt ss c).best dt ∧
    optLE (try_param cfg returns dt ss c).bestNll ss.bestNll := by
  unfold try_param
  dsimp only
  split_ifs with hacc
  · refine ⟨rfl, ?_⟩
    cases hnll : neg_log_likelihood cfg returns (clamp_params c) dt with
    | none =>
      rw [hnll] at hacc
      exact absurd hacc (by cases ss.bestNll <;> exact fun hf => hf)
    | some v =>
      cases hb : ss.bestNll with
      | none => trivial
      | some b =>
        rw [hnll, hb] at hacc
        show v ≤ b
        have : cfg.improvement_tol < b - v := hacc
        linarith
  · exact ⟨h, optLE_refl _⟩

/-- The chain of trials of one round, abstracted over the candidate
generators. -/
noncomputable def applyTrials (cfg : CalibratorConfig) (returns : List ℝ) (dt : ℝ) :
    List (SearchState → MertonParams) → SearchState → SearchState
  | [], ss => ss
  | f :: fs, ss => applyTrials cfg returns dt fs (try_param cfg returns dt ss (f ss))

/-- The eight candidate generators of one source round, in source order. -/
noncomputable def trialFuns (step : MertonParams) : List (SearchState → MertonParams) :=
  [fun ss => { ss.best with sigma := ss.best.sigma + step.sigma },
   fun ss => { ss.best with sigma := ss.best.sigma - step.sigma },
   fun ss => { ss.best with lambda := ss.best.lambda + step.lambda },
   fun ss => { ss.best with lambda := ss.best.lambda - step.lambda },
   fun ss => { ss.best with mu_j := ss.best.mu_j + step.mu_j },
   fun ss => { ss.best with mu_j := ss.best.mu_j - step.mu_j },
   fun ss => { ss.best with delta_j := ss.best.delta_j + step.delta_j },
   fun ss => { ss.best with delta_j := ss.best.delta_j - step.delta_j }]

theorem coord_round_fst_eq_applyTrials (cfg : CalibratorConfig) (returns : List ℝ)
    (dt : ℝ) (st : SearchState × MertonParams) :
    (coord_round cfg returns dt st).1 =
      applyTrials cfg returns dt (trialFuns st.2) ⟨st.1.best, st.1.bestNll, false⟩ := rfl

theorem applyTrials_nll_inv (cfg : CalibratorConfig) (returns : List ℝ) (dt : ℝ)
    (htol : 0 ≤ cfg.improvement_tol) :
    ∀ (fs : List (SearchState → MertonParams)) (ss : SearchState),
      ss.bestNll = neg_log_likelihood cfg returns ss.best dt →
      (applyTrials cfg returns dt fs ss).bestNll =
        neg_log_likelihood cfg returns (applyTrials cfg returns dt fs ss).best dt ∧
      optLE (applyTrials cfg returns dt fs ss).bestNll ss.bestNll := by
  intro fs
  induction fs with
  | nil => intro ss h; exact ⟨h, optLE_refl _⟩
  | cons f rest ih =>
    intro ss h
    have hstep := try_param_nll_inv cfg returns dt ss (f ss) htol h
    have hrec := ih (try_param cfg returns dt ss (f ss)) hstep.1
    exact ⟨hrec.1, optLE_trans hrec.2 hstep.2⟩

theorem run_rounds_nll_inv (cfg : CalibratorConfig) (returns : List ℝ) (dt : ℝ)
    (htol : 0 ≤ cfg.improvement_tol) :
    ∀ (n : ℕ) (st : SearchState × MertonParams),
      st.1.bestNll = neg_log_likelihood cfg returns st.1.best dt →
      (run_rounds cfg returns dt n st).1.bestNll =
        neg_log_likelihood cfg returns (run_rounds cfg returns dt n st).1.best dt ∧
      optLE (run_rounds cfg returns dt n st).1.bestNll st.1.bestNll := by
  intro n
  induction n with
  | zero => intro st h; exact ⟨h, optLE_refl _⟩
  | succ m ih =>
    intro st h
    have hround := applyTrials_nll_inv cfg returns dt htol (trialFuns st.2)
      ⟨st.1.best, st.1.bestNll, false⟩ h
    rw [← coord_round_fst_eq_applyTrials] at hround
    have hrec := ih (coord_round cfg returns dt st) hround.1
    exact ⟨hrec.1, optLE_trans hrec.2 hround.2⟩

/-- C5: one invocation of `maybe_update_params` (for a non-negative
improvement tolerance) never commits parameters whose NLL over the unchanged
window and representative time step is worse than that of the parameters it
started from; since the call leaves the window and the time step unchanged,
the committed NLL is monotone non-increasing across successive invocations. -/
theorem nll_monotone (s : CalState) (htol : 0 ≤ s.config.improvement_tol) :
    optLE
      (neg_log_likelihood s.config s.returns ((maybe_update_params s).2).params
        (estimate_dt_years s))
      (neg_log_likelihood s.config s.returns s.params (estimate_dt_years s)) := by
  unfold maybe_update_params
  dsimp only
  split_ifs <;> first
    | exact optLE_refl _
    | { rw [show estimate_dt_years s =
          estimate_dt_years { s with returns_since_last_update := 0 } from rfl]
        have hinv := run_rounds_nll_inv s.config s.returns
          (estimate_dt_years { s with returns_since_last_update := 0 }) htol
          s.config.coordinate_steps
          (⟨s.params,
            neg_log_likelihood s.config s.returns s.params
              (estimate_dt_years { s with returns_since_last_update := 0 }), false⟩,
           initial_step s.params) rfl
        rw [← hinv.1]
        exact hinv.2 }

/-- Witness for C5 at a concrete state (empty window, default configuration,
tolerance `1e-6 ≥ 0`). -/
theorem nll_monotone_witness :
    optLE
      (neg_log_likelihood stZeroK.config stZeroK.returns
        ((maybe_update_params stZeroK).2).params (estimate_dt_years stZeroK))
      (neg_log_likelihood stZeroK.config stZeroK.returns stZeroK.params
        (estimate_dt_years stZeroK)) :=
  nll_monotone stZeroK (by norm_num [stZeroK, defaultConfig])

/-! ## C7: strict FIFO eviction -/

theorem update_tick_false_returns (s : CalState) (p : ℝ) (t : ℤ)
    (h : (update_tick s p t).1 = false) :
    (update_tick s p t).2.returns = s.returns ∧
    (update_tick s p t).2.config = s.config := by
  obtain ⟨pa, cf, lp, lt, rs, du, c⟩ := s
  unfold update_tick at h ⊢
  cases lp <;> cases lt <;>
    dsimp only at h ⊢ <;>
    split_ifs at h ⊢ <;>
    simp_all

theorem update_tick_true_returns (s : CalState) (p : ℝ) (t : ℤ)
    (h : (update_tick s p t).1 = true) :
    (update_tick s p t).2.returns =
      (if s.config.window_size <
          (s.returns ++ [Real.log (p / s.last_price.getD 0)]).length
       then (s.returns ++ [Real.log (p / s.last_price.getD 0)]).tail
       else s.returns ++ [Real.log (p / s.last_price.getD 0)]) ∧
    (update_tick s p t).2.config = s.config := by
  obtain ⟨pa, cf, lp, lt, rs, du, c⟩ := s
  unfold update_tick at h ⊢
  cases lp <;> cases lt <;>
    simp only [Option.getD_some, Option.getD_none] at h ⊢ <;>
    split_ifs at h ⊢ <;>
    simp_all

/-- Pushing one element into a window that is the `W`-suffix of `acc` and
trimming to `W` produces the `W`-suffix of `acc ++ [r]`. -/
theorem drop_window_push (acc : List ℝ) (r : ℝ) (W : ℕ) :
    (if W < (acc.drop (acc.length - W) ++ [r]).length
     then (acc.drop (acc.length - W) ++ [r]).tail
     else acc.drop (acc.length - W) ++ [r]) =
    (acc ++ [r]).drop ((acc ++ [r]).length - W) := by
  by_cases hW : acc.length < W
  · have h0 : acc.length - W = 0 := Nat.sub_eq_zero_of_le (le_of_lt hW)
    have h1 : (acc ++ [r]).length - W = 0 := by
      simp only [List.length_append, List.length_singleton]
      omega
    rw [h0, h1, List.drop_zero, List.drop_zero]
    rw [if_neg]
    simp only [List.length_append, List.length_singleton, List.length_drop, h0]
    omega
  · push_neg at hW
    have hlen : (acc.drop (acc.length - W)).length = W := by
      rw [List.length_drop]
      exact Nat.sub_sub_self hW
    rw [if_pos (by simp [List.length_append, hlen])]
    rcases Nat.eq_zero_or_pos W with hZ | hpos
    · subst hZ
      rw [Nat.sub_zero] at hlen ⊢
      have hnil : acc.drop acc.length = [] := List.drop_eq_nil_of_le le_rfl
      rw [hnil]
      have : (acc ++ [r]).length ≤ (acc ++ [r]).length - 0 := by omega
      rw [List.drop_eq_nil_of_le (by omega)]
      rfl
    · have hne : acc.drop (acc.length - W) ≠ [] :=
        List.ne_nil_of_length_pos (by rw [hlen]; exact hpos)
      rw [List.tail_append_of_ne_nil hne, List.tail_drop]
      have harith : (acc ++ [r]).length - W = (acc.length - W) + 1 := by
        simp only [List.length_append, List.length_singleton]
        omega
      rw [harith,
        List.drop_append_of_le_length (by omega : acc.length - W + 1 ≤ acc.length)]

theorem runTicks_window (cfg : CalibratorConfig) :
    ∀ (ts : List (ℝ × ℤ)) (s : CalState) (acc : List ℝ),
      s.config = cfg →
      s.returns = acc.drop (acc.length - cfg.window_size) →
      (runTicks s ts).config = cfg ∧
      (runTicks s ts).returns =
        (acc ++ acceptedReturns s ts).drop
          ((acc ++ acceptedReturns s ts).length - cfg.window_size) := by
  intro ts
  induction ts with
  | nil =>
    intro s acc hc hr
    refine ⟨hc, ?_⟩
    show s.returns = _
    rw [show acceptedReturns s [] = [] from rfl, List.append_nil]
    exact hr
  | cons pt rest ih =>
    obtain ⟨p, t⟩ := pt
    intro s acc hc hr
    have hrun : runTicks s ((p, t) :: rest) = runTicks (update_tick s p t).2 rest := rfl
    have haccd : acceptedReturns s ((p, t) :: rest) =
        (if (update_tick s p t).1 then [Real.log (p / s.last_price.getD 0)] else [])
          ++ acceptedReturns (update_tick s p t).2 rest := rfl
    rw [hrun, haccd]
    cases hres : (update_tick s p t).1 with
    | false =>
      obtain ⟨hret, hcf⟩ := update_tick_false_returns s p t hres
      rw [if_neg Bool.false_ne_true, List.nil_append]
      exact ih (update_tick s p t).2 acc (hcf.trans hc) (hret.trans hr)
    | true =>
      obtain ⟨hret, hcf⟩ := update_tick_true_returns s p t hres
      rw [if_pos rfl]
      have hpush : (update_tick s p t).2.returns =
          (acc ++ [Real.log (p / s.last_price.getD 0)]).drop
            ((acc ++ [Real.log (p / s.last_price.getD 0)]).length - cfg.window_size) := by
        rw [hret, hc, hr]
        exact drop_window_push acc (Real.log (p / s.last_price.getD 0)) cfg.window_size
      have hrec := ih (update_tick s p t).2
        (acc ++ [Real.log (p / s.last_price.getD 0)]) (hcf.trans hc) hpush
      refine ⟨hrec.1, ?_⟩
      rw [← List.append_assoc]
      exact hrec.2

/-- C7: after exactly `window_size + k` accepted ticks from construction
(`k ≥ 1`), the sample count equals `window_size` and the oldest window entry
is the `(k+1)`-th accepted return: eviction is strict FIFO by age. -/
theorem window_fifo_eviction (initial : MertonParams) (cfg : CalibratorConfig)
    (ticks : List (ℝ × ℤ)) (k : ℕ) (hk : 1 ≤ k)
    (hcount : (acceptedReturns (mkCalibrator initial cfg) ticks).length =
      cfg.window_size + k) :
    sample_count (runTicks (mkCalibrator initial cfg) ticks) = cfg.window_size ∧
    (runTicks (mkCalibrator initial cfg) ticks).returns.head? =
      (acceptedReturns (mkCalibrator initial cfg) ticks)[k]? := by
  have h := runTicks_window cfg ticks (mkCalibrator initial cfg) [] rfl
    (by simp [mkCalibrator])
  rw [List.nil_append] at h
  have hkk : (acceptedReturns (mkCalibrator initial cfg) ticks).length -
      cfg.window_size = k := by
    rw [hcount]; omega
  rw [hkk] at h
  constructor
  · show (runTicks (mkCalibrator initial cfg) ticks).returns.length = cfg.window_size
    rw [h.2, List.length_drop, hcount]
    omega
  · rw [h.2, List.head?_drop]

/-- A window-size-1 configuration for instantiating the FIFO theorem. -/
noncomputable def cfgW1 : CalibratorConfig := ⟨1, 1, 15, 1, 3, 1e-6⟩

/-- Three concrete ticks: the first is absorbed (no previous price), the next
two are accepted. -/
noncomputable def ticksW : List (ℝ × ℤ) := [(1, 0), (1, 1), (1, 2)]

/-- Witness for C7: with `window_size = 1` and two accepted ticks
(`k = 1`), the window holds one element and its oldest entry is the second
accepted return. -/
theorem window_fifo_eviction_witness :
    sample_count (runTicks (mkCalibrator ⟨0.44, 20, 0.003, 0.01⟩ cfgW1) ticksW) =
      cfgW1.window_size ∧
    (runTicks (mkCalibrator ⟨0.44, 20, 0.003, 0.01⟩ cfgW1) ticksW).returns.head? =
      (acceptedReturns (mkCalibrator ⟨0.44, 20, 0.003, 0.01⟩ cfgW1) ticksW)[1]? := by
  refine window_fifo_eviction ⟨0.44, 20, 0.003, 0.01⟩ cfgW1 ticksW 1 le_rfl ?_
  norm_num [ticksW, acceptedReturns, update_tick, mkCalibrator, cfgW1]

end Merton
